import Mathlib

/-!
Shallow embedding of the ku-polls application core: the `Question`,
`Choice` and `Vote` data model (`polls/models.py`), the time-window
predicates `can_vote`, `is_published`, `was_published_recently`, and the
request handlers `IndexView.get_queryset`/`get`, `DetailView.get`,
`ResultsView.get` and `vote` (`polls/views.py`).

Timestamps are modelled as integers (seconds); `timezone.localtime()`
becomes an explicit `now : Int` argument.  Django ORM `.get(...)` is
modelled by `djangoGet`, which distinguishes the `DoesNotExist` and
`MultipleObjectsReturned` outcomes exactly as the exception paths of the
source do; an uncaught `MultipleObjectsReturned` (a 500 error) is the
`none` result of a handler.
-/

/-- One day, in seconds: `datetime.timedelta(days=1)`. -/
def one_day : Int := 86400

/-- `Question` model: `question_text`, `pub_date`, optional `end_date`
(`null=True, default=None`), plus its database primary key. -/
structure Question where
  id : Nat
  question_text : String
  pub_date : Int
  end_date : Option Int
deriving DecidableEq, Repr

/-- `Choice` model: foreign key to its `Question`, and `choice_text`. -/
structure Choice where
  id : Nat
  question : Nat
  choice_text : String
deriving DecidableEq, Repr

/-- `Vote` model: foreign keys to a `Choice` and a `User`. -/
structure Vote where
  user : Nat
  choice : Nat
deriving DecidableEq, Repr

/-- An authenticated `django.contrib.auth` user. -/
structure User where
  id : Nat
  username : String
deriving DecidableEq, Repr

/-- The persistent store: all `Question`, `Choice` and `Vote` rows. -/
structure AppState where
  questions : List Question
  choices : List Choice
  votes : List Vote
deriving DecidableEq, Repr

/-- `Question.can_vote`: voting is allowed when `pub_date <= now` and,
if `end_date` is set, `now <= end_date`. -/
def can_vote (now : Int) (q : Question) : Bool :=
  match q.end_date with
  | none => decide (q.pub_date ≤ now)
  | some e => decide (q.pub_date ≤ now) && decide (now ≤ e)

/-- `Question.is_published`: the question is published when
`pub_date <= now`. -/
def is_published (now : Int) (q : Question) : Bool :=
  decide (q.pub_date ≤ now)

/-- `Question.was_published_recently`:
`(now - datetime.timedelta(days=1)) <= pub_date <= now`. -/
def was_published_recently (now : Int) (q : Question) : Bool :=
  decide (now - one_day ≤ q.pub_date) && decide (q.pub_date ≤ now)

/-- Outcome of a Django `Manager.get(...)` call: the unique matching row,
`DoesNotExist`, or `MultipleObjectsReturned`. -/
inductive GetResult (α : Type) where
  | found : α → GetResult α
  | notFound : GetResult α
  | multiple : GetResult α
deriving DecidableEq, Repr

/-- `objects.get(...)` on rows `l` with filter `p`. -/
def djangoGet {α : Type} (l : List α) (p : α → Bool) : GetResult α :=
  match l.filter p with
  | [] => .notFound
  | [a] => .found a
  | _ => .multiple

/-- `question.choice_set.all()`: the choices whose foreign key is `qid`. -/
def choice_set (cs : List Choice) (qid : Nat) : List Choice :=
  cs.filter (fun c => c.question == qid)

/-- The filter of `Vote.objects.get(user=user, choice__in=question.choice_set.all())`:
`v` is a vote by user `uid` on a choice of question `qid`. -/
def voteOf (uid qid : Nat) (cs : List Choice) (v : Vote) : Bool :=
  v.user == uid && (choice_set cs qid).any (fun c => c.id == v.choice)

/-- All vote rows of user `uid` on question `qid`. -/
def votesFor (votes : List Vote) (cs : List Choice) (uid qid : Nat) : List Vote :=
  votes.filter (voteOf uid qid cs)

/-- `vote_info.choice.choice_text`: dereference the `choice` foreign key
(unique in the database) and read its text. -/
def choiceText (cs : List Choice) (cid : Nat) : String :=
  match cs.find? (fun c => c.id == cid) with
  | some c => c.choice_text
  | none => ""

/-- The HTTP responses the handlers produce.  `redirectIndex` and
`redirectResults` carry the flashed `messages.error` text when one is
added before the redirect. -/
inductive Response where
  | renderIndex : List Question → String → Response
  | renderDetail : Question → String → Response
  | renderDetailError : Question → String → Response
  | renderResults : Question → Response
  | redirectIndex : Option String → Response
  | redirectResults : Nat → Option String → Response
  | redirectLogin : String → Response
  | http404 : Response
deriving DecidableEq, Repr

/-- `IndexView.get_queryset`: the questions with `pub_date <= now`,
ordered by `-pub_date`, capped at 5. -/
def get_queryset (s : AppState) (now : Int) : List Question :=
  ((s.questions.filter (fun q => decide (q.pub_date ≤ now))).mergeSort
    (fun a b => decide (b.pub_date ≤ a.pub_date))).take 5

/-- `IndexView.get`: render the index page, with a username banner that
depends on whether the request is authenticated. -/
def index (s : AppState) (user : Option User) (now : Int) : Response :=
  match user with
  | none => .renderIndex (get_queryset s now) "Not currently logged in."
  | some u => .renderIndex (get_queryset s now) ("Logged in as " ++ u.username)

/-- `DetailView.get`: anonymous users are redirected to the login page;
then the question is looked up (redirect to index with a message when
missing); if `can_vote` the detail page is rendered with the previous
choice text of the user, else if `is_published` redirect to results with a
message, else redirect to index with a message. -/
def detail (s : AppState) (user : Option User) (pk : Nat) (now : Int) :
    Option Response :=
  match user with
  | none => some (.redirectLogin "http://127.0.0.1:8000/accounts/login")
  | some u =>
    match djangoGet s.questions (fun q => q.id == pk) with
    | .notFound => some (.redirectIndex (some "Access to question denied."))
    | .multiple => none
    | .found question =>
      if can_vote now question then
        match djangoGet s.votes (voteOf u.id question.id s.choices) with
        | .found vote_info =>
          some (.renderDetail question (choiceText s.choices vote_info.choice))
        | .notFound => some (.renderDetail question "")
        | .multiple => none
      else if is_published now question then
        some (.redirectResults question.id
          (some "Voting period is closed for this question."))
      else
        some (.redirectIndex (some "Access to question denied."))

/-- `ResultsView.get`: look up the question (redirect to index with a
message when missing); render the results page when `is_published`, else
redirect to index with a message.  The user of the request is never consulted. -/
def results (s : AppState) (user : Option User) (pk : Nat) (now : Int) :
    Option Response :=
  match djangoGet s.questions (fun q => q.id == pk) with
  | .notFound => some (.redirectIndex (some "Access to question denied."))
  | .multiple => none
  | .found question =>
    if is_published now question then some (.renderResults question)
    else some (.redirectIndex (some "Access to question denied."))

/-- The `vote` view (already behind `login_required`): look up the
question with `get_object_or_404`; look up the selected choice inside
`question.choice_set` (missing POST key or `Choice.DoesNotExist`
redisplays the form with an error and changes nothing); then either
overwrite the existing vote row of the user for this question or create a new
row, and redirect to the results page. -/
def vote (s : AppState) (uid : Nat) (question_id : Nat)
    (postChoice : Option Nat) : Option (AppState × Response) :=
  match djangoGet s.questions (fun q => q.id == question_id) with
  | .notFound => some (s, .http404)
  | .multiple => none
  | .found question =>
    let selected :=
      match postChoice with
      | none => GetResult.notFound
      | some cid => djangoGet (choice_set s.choices question.id)
          (fun c => c.id == cid)
    match selected with
    | .notFound =>
      some (s, .renderDetailError question "You didn\x27t select a choice.")
    | .multiple => none
    | .found selected_choice =>
      match djangoGet s.votes (voteOf uid question.id s.choices) with
      | .found vote_info =>
        some ({ s with votes :=
                 s.votes.replace vote_info { vote_info with choice := selected_choice.id } },
              .redirectResults question.id none)
      | .notFound =>
        some ({ s with votes := s.votes ++ [⟨uid, selected_choice.id⟩] },
              .redirectResults question.id none)
      | .multiple => none

/-- A question not yet published at time 0. -/
def futureQ : Question := ⟨1, "future question", 100, none⟩

/-- A question whose voting window closed before time 0. -/
def closedQ : Question := ⟨2, "closed question", -100, some (-10)⟩

/-- A choice of `futureQ`. -/
def futureC : Choice := ⟨11, 1, "future choice"⟩

/-- A choice of `closedQ`. -/
def closedC : Choice := ⟨21, 2, "closed choice"⟩

/-- Store with one unpublished and one closed question, no votes. -/
def windowS : AppState := ⟨[futureQ, closedQ], [futureC, closedC], []⟩

/-- An authenticated example user. -/
def aliceU : User := ⟨7, "alice"⟩

/-- A question published at time 0 with no end date. -/
def favQ : Question := ⟨1, "favourite animal", 0, none⟩

/-- First choice of `favQ`. -/
def favA : Choice := ⟨11, 1, "cats"⟩

/-- Second choice of `favQ`. -/
def favB : Choice := ⟨12, 1, "dogs"⟩

/-- A choice whose foreign key names a different question (id 9). -/
def otherC : Choice := ⟨31, 9, "stray"⟩

/-- Store with one published question, its two choices, one foreign
choice, and no votes. -/
def pollS : AppState := ⟨[favQ], [favA, favB, otherC], []⟩

/-- The empty store. -/
def emptyS : AppState := ⟨[], [], []⟩

/-- C2: `can_vote(t)` holds iff `pub_date <= t` and (`end_date` unset or
`t <= end_date`); both boundaries inclusive. -/
theorem can_vote_iff (q : Question) (t : Int) :
    can_vote t q = true ↔
      q.pub_date ≤ t ∧ (q.end_date = none ∨ ∃ e, q.end_date = some e ∧ t ≤ e) := by
  unfold can_vote
  cases h : q.end_date with
  | none => simp
  | some e =>
    simp only [Bool.and_eq_true, decide_eq_true_eq]
    constructor
    · rintro ⟨h1, h2⟩
      exact ⟨h1, Or.inr ⟨e, rfl, h2⟩⟩
    · rintro ⟨h1, h2⟩
      refine ⟨h1, ?_⟩
      rcases h2 with h2 | ⟨e', he', hle⟩
      · cases h2
      · cases he'; exact hle

/-- C3: `is_published(t)` holds iff `t >= pub_date`, inclusive at the
boundary. -/
theorem is_published_iff (q : Question) (t : Int) :
    is_published t q = true ↔ q.pub_date ≤ t := by
  simp [is_published]

/-- C4: `was_published_recently(now)` holds iff `pub_date` lies in the
closed interval `[now - 1 day, now]`. -/
theorem was_published_recently_iff (q : Question) (now : Int) :
    was_published_recently now q = true ↔
      now - one_day ≤ q.pub_date ∧ q.pub_date ≤ now := by
  simp [was_published_recently]

/-- `djangoGet` returns `found a` exactly when the filter keeps the single
row `a`. -/
theorem filter_eq_of_found {α : Type} {l : List α} {p : α → Bool} {a : α}
    (h : djangoGet l p = .found a) : l.filter p = [a] := by
  unfold djangoGet at h
  rcases hf : l.filter p with _ | ⟨x, _ | ⟨y, t⟩⟩ <;> rw [hf] at h
  · exact absurd h (by simp)
  · have hx : GetResult.found x = GetResult.found a := h
    injection hx with hx
    rw [hx]
  · exact absurd h (by simp)

theorem djangoGet_of_filter_nil {α : Type} {l : List α} {p : α → Bool}
    (h : l.filter p = []) : djangoGet l p = .notFound := by
  unfold djangoGet
  rw [h]

theorem djangoGet_of_filter_singleton {α : Type} {l : List α} {p : α → Bool}
    {a : α} (h : l.filter p = [a]) : djangoGet l p = .found a := by
  unfold djangoGet
  rw [h]

/-- C5: the index listing holds exactly the stored questions with
`pub_date <= now`, sorted most-recent-first, truncated to at most 5;
future questions never appear. -/
theorem get_queryset_spec (s : AppState) (now : Int) :
    (∀ q ∈ get_queryset s now, q ∈ s.questions ∧ q.pub_date ≤ now) ∧
    (get_queryset s now).Pairwise (fun a b => b.pub_date ≤ a.pub_date) ∧
    (get_queryset s now).length ≤ 5 ∧
    (∀ q ∈ s.questions, q.pub_date ≤ now →
      q ∈ get_queryset s now ∨ (get_queryset s now).length = 5) := by
  unfold get_queryset
  refine ⟨?_, ?_, ?_, ?_⟩
  · intro q hq
    have hm := List.mem_of_mem_take hq
    rw [List.mem_mergeSort] at hm
    have := List.mem_filter.mp hm
    exact ⟨this.1, by simpa using this.2⟩
  · have hs := @List.sorted_mergeSort Question (fun a b : Question => decide (b.pub_date ≤ a.pub_date))
      (fun a b c hab hbc => by
        simp only [decide_eq_true_eq] at *
        exact le_trans hbc hab)
      (fun a b => by
        simp only [Bool.or_eq_true, decide_eq_true_eq]
        exact le_total b.pub_date a.pub_date)
      (s.questions.filter (fun q => decide (q.pub_date ≤ now)))
    have := hs.sublist (List.take_sublist 5 _)
    exact this.imp (fun h => by simpa using h)
  · rw [List.length_take]
    exact min_le_left _ _
  · intro q hq hle
    by_cases hlen :
        ((s.questions.filter (fun q => decide (q.pub_date ≤ now))).mergeSort
          (fun a b => decide (b.pub_date ≤ a.pub_date))).length ≤ 5
    · left
      rw [List.take_of_length_le hlen, List.mem_mergeSort]
      exact List.mem_filter.mpr ⟨hq, by simpa using hle⟩
    · right
      rw [List.length_take]
      omega

/-- C10: an anonymous request to the detail view is redirected to the
login page before any lookup or window check; the index page renders for
anonymous users; the results view ignores the user entirely. -/
theorem anonymous_access (s : AppState) (pk : Nat) (now : Int) (uo : Option User) :
    detail s none pk now =
      some (.redirectLogin "http://127.0.0.1:8000/accounts/login") ∧
    index s none now =
      .renderIndex (get_queryset s now) "Not currently logged in." ∧
    results s uo pk now = results s none pk now :=
  ⟨rfl, rfl, rfl⟩

/-- C9: the `vote` handler never consults `can_vote` or `is_published`:
at time 0 both example questions refuse voting, yet a posted valid choice
is recorded and the user is redirected to results exactly as for an open
question. -/
theorem vote_ignores_voting_window :
    can_vote 0 futureQ = false ∧ can_vote 0 closedQ = false ∧
    is_published 0 futureQ = false ∧
    vote windowS 7 1 (some 11) =
      some ({ windowS with votes := [⟨7, 11⟩] }, .redirectResults 1 none) ∧
    vote windowS 7 2 (some 21) =
      some ({ windowS with votes := [⟨7, 21⟩] }, .redirectResults 2 none) := by
  decide

/-- If exactly one row of `l` satisfies `p` and the replacement `w` also
satisfies `p`, then after replacing that row by `w` exactly `w`
satisfies `p`. -/
theorem filter_replace_of_singleton {α : Type} [DecidableEq α]
    {p : α → Bool} {l : List α} {v : α} (w : α)
    (h : l.filter p = [v]) (hw : p w = true) :
    (l.replace v w).filter p = [w] := by
  induction l with
  | nil => simp at h
  | cons a t ih =>
    by_cases hav : v = a
    · subst hav
      have hpv : p v = true := by
        by_contra hpv
        rw [List.filter_cons_of_neg (by simpa using hpv)] at h
        have : v ∈ t.filter p := h ▸ List.mem_singleton_self v
        exact hpv (List.mem_filter.mp this).2
      rw [List.filter_cons_of_pos hpv] at h
      have ht : t.filter p = [] := by
        simpa using h
      rw [List.replace_cons, beq_self_eq_true]
      simp [List.filter_cons_of_pos hw, ht]
    · rw [List.replace_cons]
      have hbeq : (v == a) = false := by simpa using hav
      rw [hbeq]
      by_cases hpa : p a = true
      · rw [List.filter_cons_of_pos hpa] at h
        have : a = v := by simpa using congrArg (fun xs => xs.head?) h
        exact absurd this.symm hav
      · have hpa' : p a = false := by simpa using hpa
        rw [List.filter_cons_of_neg (by simpa using hpa')] at h
        simp only [List.filter_cons_of_neg (by simpa using hpa' : ¬ p a = true)]
        exact ih h

/-- A row found by `djangoGet` is in the list and satisfies the filter. -/
theorem mem_of_found {α : Type} {l : List α} {p : α → Bool} {a : α}
    (h : djangoGet l p = .found a) : a ∈ l ∧ p a = true := by
  have hf := filter_eq_of_found h
  have : a ∈ l.filter p := hf ▸ List.mem_singleton_self a
  exact List.mem_filter.mp this

/-- One successful `vote` submission leaves exactly one vote row for the
(user, question) pair, pointing at the selected choice, and leaves
questions and choices untouched. -/
theorem vote_upsert {s : AppState} {u qid : Nat} {q : Question} {c : Choice}
    (hq : djangoGet s.questions (fun x => x.id == qid) = .found q)
    (hc : djangoGet (choice_set s.choices q.id) (fun x => x.id == c.id) = .found c)
    (hv : (votesFor s.votes s.choices u q.id).length ≤ 1) :
    ∃ s' : AppState,
      vote s u qid (some c.id) = some (s', .redirectResults q.id none) ∧
      votesFor s'.votes s'.choices u q.id = [⟨u, c.id⟩] ∧
      s'.questions = s.questions ∧ s'.choices = s.choices := by
  have hcmem := mem_of_found hc
  have hnew : voteOf u q.id s.choices ⟨u, c.id⟩ = true := by
    unfold voteOf
    simp only [Bool.and_eq_true, beq_self_eq_true, true_and, List.any_eq_true]
    exact ⟨c, hcmem.1, by simp⟩
  rcases hfil : votesFor s.votes s.choices u q.id with _ | ⟨v, _ | ⟨v2, t⟩⟩
  · -- no previous vote: a new row is appended
    refine ⟨{ s with votes := s.votes ++ [⟨u, c.id⟩] }, ?_, ?_, rfl, rfl⟩
    · have hfil' : s.votes.filter (voteOf u q.id s.choices) = [] := hfil
      simp only [vote, hq, hc, djangoGet_of_filter_nil hfil']
    · unfold votesFor at hfil ⊢
      rw [List.filter_append, hfil]
      simp [hnew]
  · -- one previous vote row: it is overwritten in place
    have hvp : voteOf u q.id s.choices v = true := by
      have : v ∈ s.votes.filter (voteOf u q.id s.choices) := by
        rw [show s.votes.filter (voteOf u q.id s.choices) = [v] from hfil]
        exact List.mem_singleton_self v
      exact (List.mem_filter.mp this).2
    have huser : v.user = u := by
      have hvp' := hvp
      unfold voteOf at hvp'
      rw [Bool.and_eq_true] at hvp'
      simpa using hvp'.1
    refine ⟨{ s with votes :=
        s.votes.replace v { v with choice := c.id } }, ?_, ?_, rfl, rfl⟩
    · have hfil' : s.votes.filter (voteOf u q.id s.choices) = [v] := hfil
      simp only [vote, hq, hc, djangoGet_of_filter_singleton hfil']
    · have hw : voteOf u q.id s.choices { v with choice := c.id } = true := by
        unfold voteOf
        simp only [Bool.and_eq_true, List.any_eq_true]
        exact ⟨by simpa using huser, c, hcmem.1, by simp⟩
      unfold votesFor at hfil ⊢
      rw [filter_replace_of_singleton _ hfil hw]
      have : ({ v with choice := c.id } : Vote) = ⟨u, c.id⟩ := by
        cases v
        simp_all
      rw [this]
  · exfalso
    rw [hfil] at hv
    simp at hv

/-- C1: at most one vote row per (user, question): a second vote by the
same user on the same question overwrites the first, so after voting
twice exactly one row exists for the pair and it records the second
selection. -/
theorem vote_twice_single_row {s : AppState} {u qid : Nat} {q : Question}
    {c1 c2 : Choice}
    (hq : djangoGet s.questions (fun x => x.id == qid) = .found q)
    (hc1 : djangoGet (choice_set s.choices q.id) (fun x => x.id == c1.id) = .found c1)
    (hc2 : djangoGet (choice_set s.choices q.id) (fun x => x.id == c2.id) = .found c2)
    (hv : (votesFor s.votes s.choices u q.id).length ≤ 1) :
    ∃ s1 s2 : AppState,
      vote s u qid (some c1.id) = some (s1, .redirectResults q.id none) ∧
      vote s1 u qid (some c2.id) = some (s2, .redirectResults q.id none) ∧
      votesFor s2.votes s2.choices u q.id = [⟨u, c2.id⟩] := by
  obtain ⟨s1, h1, hv1, hqs, hcs⟩ := vote_upsert hq hc1 hv
  have hq' : djangoGet s1.questions (fun x => x.id == qid) = .found q := by
    rw [hqs]; exact hq
  have hc2' : djangoGet (choice_set s1.choices q.id)
      (fun x => x.id == c2.id) = .found c2 := by
    rw [hcs]; exact hc2
  have hv' : (votesFor s1.votes s1.choices u q.id).length ≤ 1 := by
    rw [hv1]; simp
  obtain ⟨s2, h2, hv2, _, _⟩ := vote_upsert hq' hc2' hv'
  exact ⟨s1, s2, h1, h2, hv2⟩

/-- Witness for C1 at a concrete store: alice votes for choice 11, then
choice 12, of question 1. -/
theorem vote_twice_single_row_witness :
    ∃ s1 s2 : AppState,
      vote pollS 7 1 (some 11) = some (s1, .redirectResults 1 none) ∧
      vote s1 7 1 (some 12) = some (s2, .redirectResults 1 none) ∧
      votesFor s2.votes s2.choices 7 1 = [⟨7, 12⟩] :=
  @vote_twice_single_row pollS 7 1 favQ favA favB
    (by decide) (by decide) (by decide) (by decide)

/-- C6: a vote submission whose choice id is missing, unknown, or belongs
to another question redisplays the voting form with an error message and
leaves the store unchanged. -/
theorem vote_invalid_choice {s : AppState} {u qid : Nat} {q : Question}
    (pc : Option Nat)
    (hq : djangoGet s.questions (fun x => x.id == qid) = .found q)
    (hc : ∀ c ∈ choice_set s.choices q.id, ¬ pc = some c.id) :
    vote s u qid pc =
      some (s, .renderDetailError q "You didn\x27t select a choice.") := by
  cases pc with
  | none => simp only [vote, hq]
  | some cid =>
    have hnil : (choice_set s.choices q.id).filter (fun c => c.id == cid) = [] := by
      rw [List.filter_eq_nil_iff]
      intro c hcmem
      have := hc c hcmem
      simp only [beq_iff_eq]
      intro hcc
      exact this (by rw [hcc])
    simp only [vote, hq, djangoGet_of_filter_nil hnil]

/-- Witness for C6: posting the foreign choice 31 against question 1
changes nothing and redisplays the form. -/
theorem vote_invalid_choice_witness :
    vote pollS 7 1 (some 31) =
      some (pollS, .renderDetailError favQ "You didn\x27t select a choice.") :=
  @vote_invalid_choice pollS 7 1 favQ (some 31) (by decide) (by decide)

/-- An open voting window requires the question to be published. -/
theorem is_published_of_can_vote {now : Int} {q : Question}
    (h : can_vote now q = true) : is_published now q = true := by
  unfold can_vote at h
  unfold is_published
  cases he : q.end_date with
  | none => rw [he] at h; exact h
  | some e =>
    rw [he] at h
    rw [Bool.and_eq_true] at h
    exact h.1

/-- C7: for an existing question and an authenticated request, the detail
view renders when `can_vote`, redirects to results when voting is closed
but the question is published, and redirects to index when unpublished;
the results view also redirects to index when unpublished. -/
theorem detail_routing {s : AppState} {pk : Nat} {q : Question}
    (u : User) (now : Int)
    (hq : djangoGet s.questions (fun x => x.id == pk) = .found q)
    (hv : (votesFor s.votes s.choices u.id q.id).length ≤ 1) :
    (can_vote now q = true →
      ∃ check, detail s (some u) pk now = some (.renderDetail q check)) ∧
    (can_vote now q = false → is_published now q = true →
      detail s (some u) pk now =
        some (.redirectResults q.id
          (some "Voting period is closed for this question."))) ∧
    (is_published now q = false →
      detail s (some u) pk now =
        some (.redirectIndex (some "Access to question denied.")) ∧
      results s (some u) pk now =
        some (.redirectIndex (some "Access to question denied."))) := by
  refine ⟨?_, ?_, ?_⟩
  · intro hcv
    rcases hfil : votesFor s.votes s.choices u.id q.id with _ | ⟨v, _ | ⟨v2, t⟩⟩
    · have hfil' : s.votes.filter (voteOf u.id q.id s.choices) = [] := hfil
      exact ⟨"", by
        simp only [detail, hq, hcv, if_true, djangoGet_of_filter_nil hfil']⟩
    · have hfil' : s.votes.filter (voteOf u.id q.id s.choices) = [v] := hfil
      exact ⟨choiceText s.choices v.choice, by
        simp only [detail, hq, hcv, if_true,
          djangoGet_of_filter_singleton hfil']⟩
    · exfalso
      rw [hfil] at hv
      simp at hv
  · intro hcv hp
    simp only [detail, hq, hcv, hp, Bool.false_eq_true, if_false, if_true]
  · intro hp
    have hcv : can_vote now q = false := by
      cases hcv2 : can_vote now q with
      | false => rfl
      | true =>
        rw [is_published_of_can_vote hcv2] at hp
        exact absurd hp (by simp)
    constructor
    · simp only [detail, hq, hcv, hp, Bool.false_eq_true, if_false]
    · simp only [results, hq, hp, Bool.false_eq_true, if_false]

/-- Witness for C7: the unpublished question 1 of `windowS` at time 0
redirects both detail and results to the index. -/
theorem detail_routing_witness :
    detail windowS (some aliceU) 1 0 =
      some (.redirectIndex (some "Access to question denied.")) ∧
    results windowS (some aliceU) 1 0 =
      some (.redirectIndex (some "Access to question denied.")) :=
  (@detail_routing windowS 1 futureQ aliceU 0 (by decide) (by decide)).2.2
    (by decide)

/-- C8 as amended: on a non-existent question id the detail and results
views redirect to the index with a message, while the `vote` view raises
`Http404` (an error page, not a redirect) and changes nothing. -/
theorem missing_question_responses {s : AppState} {pk : Nat}
    (uo : Option User) (u : User) (uid : Nat) (now : Int) (pc : Option Nat)
    (h : djangoGet s.questions (fun q => q.id == pk) = .notFound) :
    detail s (some u) pk now =
      some (.redirectIndex (some "Access to question denied.")) ∧
    results s uo pk now =
      some (.redirectIndex (some "Access to question denied.")) ∧
    vote s uid pk pc = some (s, .http404) := by
  refine ⟨?_, ?_, ?_⟩ <;> simp only [detail, results, vote, h]

/-- Witness for C8 (amended) on the empty store. -/
theorem missing_question_responses_witness :
    detail emptyS (some aliceU) 99 0 =
      some (.redirectIndex (some "Access to question denied.")) ∧
    results emptyS none 99 0 =
      some (.redirectIndex (some "Access to question denied.")) ∧
    vote emptyS 7 99 none = some (emptyS, .http404) :=
  @missing_question_responses emptyS 99 none aliceU 7 0 none (by decide)

/-- Counterexample to C8 as stated: a vote submission naming the missing
question 99 yields an `Http404` response, not a redirect to the index
with a message. -/
theorem vote_missing_question_is_404 :
    vote emptyS 7 99 (some 1) = some (emptyS, .http404) ∧
    Response.http404 ≠
      Response.redirectIndex (some "Access to question denied.") := by
  decide

/-- Witness for C5: the published question of `pollS` appears in the
index listing at time 50 (or the listing is already full). -/
theorem get_queryset_spec_witness :
    favQ ∈ get_queryset pollS 50 ∨ (get_queryset pollS 50).length = 5 :=
  (get_queryset_spec pollS 50).2.2.2 favQ (by decide) (by decide)
